import Mathlib

/-!
Verification of the AIQuizApp quiz platform core against its specification.

The definitions below are a shallow embedding of the Python source:

* `src/utils/helpers.py` — answer normalization, correctness check, percentage;
* `src/services/llm_service.py` — `validate_question` consensus computation;
* `src/services/quiz_service.py` — question sampler, `save_question_attempt`;
* `src/components/user/question_card.py` — `save_question_attempt_upsert`;
* `src/components/user/results_view.py` — `deduplicate_question_attempts`;
* `src/components/admin/question_form.py` / `review_queue.py` — manual-skip
  placeholder result and the manual-entry detection rule;
* `src/config/settings.py` — `DIFFICULTY_MIX`.

Strings are modelled as Lean `String`; databases as lists of records;
machine integers as `Int`/`Nat` (no overflow is possible in the modelled
code paths); Python float ratios `0.7/0.2/0.1` are modelled as the exact
rationals `7/10, 2/10, 1/10`, and Python's `round(x, 1)` as exact
half-to-even rounding over `ℚ`.
-/

namespace AIQuiz

/-! ### String normalization (Python `.upper()`, `.replace(' ','')`, `.split(',')`) -/

/-- Python `s.upper()` restricted to the ASCII data the app handles. -/
def pyUpper (s : String) : String := String.mk (s.data.map Char.toUpper)

/-- Python `s.replace(' ', '')`: delete every space character. -/
def stripSpaces (s : String) : String := String.mk (s.data.filter (fun c => c ≠ ' '))

/-- The normalization `s.upper().replace(' ', '')` used throughout the app. -/
def normalizeAnswer (s : String) : String := stripSpaces (pyUpper s)

/-- Python `str.split(',')` on the character list: `"".split(',') = ['']`. -/
def splitComma : List Char → List (List Char)
  | [] => [[]]
  | c :: cs =>
    match splitComma cs with
    | [] => [[]]
    | g :: gs => if c = ',' then [] :: g :: gs else (c :: g) :: gs

/-- `set(s.upper().replace(' ','').split(','))` — the letter set of an answer. -/
def answerSet (s : String) : Finset String :=
  ((splitComma (normalizeAnswer s).data).map String.mk).toFinset

/-! ### `src/utils/helpers.py` -/

/-- `check_answer_correctness(user_answer, correct_answer)`:
normalize both answers and compare the resulting letter sets. -/
def check_answer_correctness (user_answer correct_answer : String) : Bool :=
  decide (answerSet user_answer = answerSet correct_answer)

/-- Round a rational to the nearest integer, ties to even (Python `round`). -/
def roundHalfEven (x : ℚ) : ℤ :=
  let f : ℤ := ⌊x⌋
  let r : ℚ := x - f
  if r < 1/2 then f
  else if 1/2 < r then f + 1
  else if f % 2 = 0 then f else f + 1

/-- Python `round(x, 1)` modelled exactly over `ℚ`. -/
def pyRound1 (x : ℚ) : ℚ := (roundHalfEven (x * 10) : ℚ) / 10

/-- `calculate_percentage(correct, total)`:
`0.0` when `total == 0`, else `round((correct/total)*100, 1)`. -/
def calculate_percentage (correct total : ℤ) : ℚ :=
  if total = 0 then 0
  else pyRound1 ((correct : ℚ) / (total : ℚ) * 100)

/-! ### `src/services/llm_service.py` — `validate_question` consensus -/

/-- One backend call outcome: `success` plus, on success, the parsed
`data['your_answer']` field (empty string when the key is absent). -/
structure LLMResult where
  success : Bool
  your_answer : String
deriving DecidableEq, Repr

/-- The consensus part of `validate_question`'s returned dictionary. -/
structure ConsensusResult where
  all_agree : Bool
  agreement_count : Nat
  consensus_answer : String
deriving DecidableEq, Repr

/-- The agreement/consensus computation of `validate_question`, lines 244-288
of `llm_service.py`, as a function of the stored `correct_answer` and the two
backend results (Claude first, GPT second — the iteration order of the code).
The prompt construction and the parallel dispatch itself are not modelled. -/
def validate_question (correct_answer : String) (claude_result gpt_result : LLMResult) :
    ConsensusResult :=
  let stored_answer := normalizeAnswer correct_answer
  -- answers collected from successful calls, in [claude, gpt] order
  let answers := (([claude_result, gpt_result].filter (·.success)).map
    (fun r => normalizeAnswer r.your_answer))
  -- `agreements` is incremented only under `if stored_answer:`
  let agreements := if stored_answer ≠ "" then answers.countP (fun a => a == stored_answer)
    else 0
  -- `consensus_answer = stored_answer if stored_answer else ''`
  let consensus0 := if stored_answer ≠ "" then stored_answer else ""
  let step :=
    match answers with
    | [a, b] =>
      if a = b then (true, a)
      else (false, if stored_answer = "" then a else consensus0)
    | _ => (false, consensus0)
  -- `if stored_answer and len(answers) == 2: all_agree = (agreements == 2)`
  let all_agree :=
    if stored_answer ≠ "" ∧ answers.length = 2 then decide (agreements = 2) else step.1
  let pair_agree :=
    match answers with
    | [a, b] => decide (a = b)
    | _ => false
  { all_agree := all_agree
    agreement_count :=
      if stored_answer ≠ "" then agreements
      else if answers.length = 2 ∧ pair_agree = true then 2 else 0
    consensus_answer := step.2 }

/-! ### `src/components/admin/question_form.py` and `review_queue.py` -/

/-- One backend slot of the stored validation payload: `success` plus the
`error` key (absent modelled as `none`). -/
structure PayloadSlot where
  success : Bool
  error : Option String
deriving DecidableEq, Repr

/-- The validation payload dictionary as stored with a question. The optional
`manual_entry` / `skipped_ai` keys are modelled as `Bool` with absence as
`false` (Python `dict.get` falsy default). -/
structure ValidationPayload where
  all_agree : Bool
  claude : PayloadSlot
  gpt : PayloadSlot
  agreement_count : Nat
  consensus_answer : String
  manual_entry : Bool
  skipped_ai : Bool
deriving DecidableEq, Repr

/-- The literal error sentinel used when the operator skips AI validation. -/
def skipSentinel : String := "AI validation skipped by user"

/-- `create_manual_validation_result(question_data)` from `question_form.py`. -/
def create_manual_validation_result (correct_answer : String) : ValidationPayload :=
  { all_agree := false
    claude := { success := false, error := some skipSentinel }
    gpt := { success := false, error := some skipSentinel }
    agreement_count := 0
    consensus_answer := correct_answer
    manual_entry := true
    skipped_ai := true }

/-- `detect_manual_entry(validation_data)` from `review_queue.py` — the
manual-detection rule of spec §6. -/
def detect_manual_entry (v : ValidationPayload) : Bool :=
  (v.skipped_ai || v.manual_entry) ||
    (v.claude.error == some skipSentinel || v.gpt.error == some skipSentinel)

/-- The branch of `handle_validation` that selects between the synthesized
placeholder (skip) and the dual-model validator, parametrized by the
validator call so that its non-invocation in the skip branch is provable. -/
def handle_validation (validator : Unit → ValidationPayload) (skip_ai : Bool)
    (correct_answer : String) : ValidationPayload :=
  if skip_ai then create_manual_validation_result correct_answer else validator ()

/-- The flag computation of `handle_save`: `(llm_validated, llm_conflict)`. -/
def handle_save_flags (skip_ai : Bool) (v : ValidationPayload) (action : String) :
    Bool × Bool :=
  if skip_ai || v.manual_entry then (false, true)
  else if action = "accept" then (true, false)
  else (false, true)

/-- `handle_save` stores a copy of the payload with `all_agree` overridden by
`llm_validated`. -/
def handle_save_payload (v : ValidationPayload) (llm_validated : Bool) :
    ValidationPayload :=
  { v with all_agree := llm_validated }

/-! ### Writes to `question_attempts` —
`src/services/quiz_service.py` (`save_question_attempt`) and
`src/components/user/question_card.py` (`save_question_attempt_upsert`) -/

/-- A row of the `question_attempts` table (the columns both write paths
set; `answered_at` is not modelled as neither claim C1 path reads it). -/
structure AttemptRecord where
  quiz_attempt_id : Nat
  question_id : Nat
  user_answer : Option String
  is_correct : Bool
  llm_explanation : Option String
  llm_references : Option String
  skipped : Bool
deriving DecidableEq, Repr

/-- True when `e` has the same `(quiz_attempt_id, question_id)` key as `r`. -/
def sameKey (r e : AttemptRecord) : Bool :=
  e.quiz_attempt_id == r.quiz_attempt_id && e.question_id == r.question_id

/-- `save_question_attempt` (`quiz_service.py` lines 257-282): a plain
`INSERT` with no `ON CONFLICT` clause. Modelled from the spec: the table
schema is not under `src/`; per the spec the table is keyed by
`(quiz_attempt_id, question_id)` (the key the upsert's `ON CONFLICT` clause
names), so a duplicate-key `INSERT` raises, which the function catches and
turns into `false` with the table unchanged. -/
def save_question_attempt (table : List AttemptRecord) (r : AttemptRecord) :
    List AttemptRecord × Bool :=
  if table.any (sameKey r) then (table, false) else (table ++ [r], true)

/-- `save_question_attempt_upsert` (`question_card.py` lines 210-240):
`INSERT ... ON CONFLICT (quiz_attempt_id, question_id) DO UPDATE SET` every
payload column to the excluded row's value. -/
def save_question_attempt_upsert (table : List AttemptRecord) (r : AttemptRecord) :
    List AttemptRecord :=
  if table.any (sameKey r) then table.map (fun e => if sameKey r e then r else e)
  else table ++ [r]

/-- A sequence of upsert writes applied in order. -/
def applyUpsertWrites (table : List AttemptRecord) (ws : List AttemptRecord) :
    List AttemptRecord :=
  ws.foldl save_question_attempt_upsert table

/-! ### `src/config/settings.py` `DIFFICULTY_MIX` and the difficulty
sub-count computation of `select_questions_for_attempt` -/

/-- `DIFFICULTY_MIX` from `settings.py`: for each preferred difficulty, the
(Easy, Medium, Hard) ratio triple. The Python floats `0.7/0.2/0.1` are the
exact tenths `7/10, 2/10, 1/10`, kept here as numerators over 10. -/
def DIFFICULTY_MIX : List (String × (Nat × Nat × Nat)) :=
  [("Easy", (7, 2, 1)), ("Medium", (2, 7, 1)), ("Hard", (1, 2, 7))]

/-- `settings.DIFFICULTY_MIX.get(difficulty, settings.DIFFICULTY_MIX['Medium'])`. -/
def difficultyMix (difficulty : String) : Nat × Nat × Nat :=
  (DIFFICULTY_MIX.lookup difficulty).getD (2, 7, 1)

/-- `easy_count = int(num_questions * mix['Easy'])`: floor of `n · r/10`. -/
def easyCount (n : Nat) (d : String) : Nat := n * (difficultyMix d).1 / 10

/-- `medium_count = int(num_questions * mix['Medium'])`. -/
def mediumCount (n : Nat) (d : String) : Nat := n * (difficultyMix d).2.1 / 10

/-- `hard_count = num_questions - easy_count - medium_count`. -/
def hardCount (n : Nat) (d : String) : Nat := n - easyCount n d - mediumCount n d

/-! ### `src/services/quiz_service.py` — `select_questions_for_attempt` -/

/-- A row of the `questions` table (the columns the sampler touches). -/
structure QuestionRow where
  question_id : Nat
  difficulty : String
  llm_conflict : Bool
deriving DecidableEq, Repr

/-- A row of the `quiz_questions` many-to-many tagging table. -/
structure QuizTag where
  quiz_id : Nat
  question_id : Nat
deriving DecidableEq, Repr

/-- A candidate question as returned by the pool query: id and difficulty. -/
structure Question where
  question_id : Nat
  difficulty : String
deriving DecidableEq, Repr

/-- The pool query: all questions tagged to the quiz with
`llm_conflict = FALSE` (lines 164-172). -/
def fetchPool (rows : List QuestionRow) (tags : List QuizTag) (quizId : Nat) :
    List Question :=
  (rows.filter (fun r =>
      tags.any (fun t => t.quiz_id == quizId && t.question_id == r.question_id)
        && !r.llm_conflict)).map
    (fun r => { question_id := r.question_id, difficulty := r.difficulty })

/-- `available = [q for q in all_questions if q['question_id'] not in
recent_ids]` followed by the fallback `if len(available) < num_questions:
available = all_questions` (lines 193-199). -/
def availablePool (pool : List Question) (recentIds : List Nat) (n : Nat) :
    List Question :=
  let avail := pool.filter (fun q => !(recentIds.contains q.question_id))
  if avail.length < n then pool else avail

/-- The stratified stage (lines 201-218): partition by difficulty and sample
up to each sub-target from each bucket. `sample` abstracts `random.sample`. -/
def pickByDifficulty (sample : List Question → Nat → List Question)
    (available : List Question) (n : Nat) (d : String) : List Question :=
  let easy := available.filter (fun q => q.difficulty == "Easy")
  let medium := available.filter (fun q => q.difficulty == "Medium")
  let hard := available.filter (fun q => q.difficulty == "Hard")
  sample easy (min (easyCount n d) easy.length) ++
    sample medium (min (mediumCount n d) medium.length) ++
      sample hard (min (hardCount n d) hard.length)

/-- The top-up stage (lines 220-226): if short of `n`, sample the shortfall
from the pool outside the already-selected set. -/
def fillSelection (sample : List Question → Nat → List Question)
    (available selected : List Question) (n : Nat) : List Question :=
  if selected.length < n then
    let remaining := available.filter (fun q => !(selected.contains q))
    if remaining.isEmpty then selected
    else selected ++ sample remaining (min (n - selected.length) remaining.length)
  else selected

/-- `select_questions_for_attempt` (lines 148-237): empty-pool
short-circuit, recency filter with fallback, stratified sampling, top-up,
shuffle, projection to question ids. `sample` and `shuffle` abstract the
pseudo-random `random.sample` / `random.shuffle`. -/
def select_questions_for_attempt
    (sample : List Question → Nat → List Question)
    (shuffle : List Question → List Question)
    (pool : List Question) (recentIds : List Nat) (n : Nat) (d : String) :
    List Nat :=
  if pool.isEmpty then []
  else
    let available := availablePool pool recentIds n
    let selected := fillSelection sample available
      (pickByDifficulty sample available n d) n
    (shuffle selected).map (fun q => q.question_id)

/-- The contract of `random.sample(population, k)` for `k ≤ len(population)`:
`k` elements drawn without replacement from the population — so all members
of it, and pairwise distinct whenever the population has no duplicates. -/
def SampleSpec (sample : List Question → Nat → List Question) : Prop :=
  ∀ l k, k ≤ l.length →
    (sample l k).length = k ∧ (sample l k) ⊆ l ∧ (l.Nodup → (sample l k).Nodup)

/-! ### `src/components/user/results_view.py` — read-back deduplication -/

/-- A question-attempt row as read back for the results view: the fields the
deduplication rule inspects, plus `user_answer` as a distinguishing payload. -/
structure QARow where
  question_id : Nat
  skipped : Bool
  answered_at : Nat
  user_answer : Option String
deriving DecidableEq, Repr

/-- One loop iteration of `deduplicate_question_attempts`: fold `qa` into
`question_map` (a Python dict in insertion order, modelled as a list whose
`question_id`s are unique). Replacing a value at an existing key keeps its
position, so it is a positional `map`. -/
def dedupStep (qmap : List QARow) (qa : QARow) : List QARow :=
  match qmap.find? (fun e => e.question_id == qa.question_id) with
  | none => qmap ++ [qa]
  | some existing =>
    -- prefer non-skipped over skipped
    if existing.skipped = true ∧ qa.skipped = false then
      qmap.map (fun e => if e.question_id == qa.question_id then qa else e)
    -- if both skipped or both answered, take most recent (by answered_at)
    else if existing.skipped = qa.skipped ∧ existing.answered_at < qa.answered_at then
      qmap.map (fun e => if e.question_id == qa.question_id then qa else e)
    else qmap

/-- `deduplicate_question_attempts(question_attempts)` from `results_view.py`:
group by `question_id`, returning `list(question_map.values())`. -/
def deduplicate_question_attempts (l : List QARow) : List QARow :=
  l.foldl dedupStep []

/-- The `(quiz_attempt_id, question_id)` key of a row. -/
def keyOf (e : AttemptRecord) : Nat × Nat := (e.quiz_attempt_id, e.question_id)

/-- At most one live record per `(quiz_attempt_id, question_id)` pair. -/
def KeyUnique (table : List AttemptRecord) : Prop :=
  table.Pairwise (fun e₁ e₂ => keyOf e₁ ≠ keyOf e₂)

end AIQuiz

namespace AIQuiz

/-! ### Theorems for `check_answer_correctness` and `calculate_percentage` -/

theorem check_answer_correctness_iff (u c : String) :
    check_answer_correctness u c = true ↔ answerSet u = answerSet c := by
  simp [check_answer_correctness]

end AIQuiz

/-- C9: the correctness check normalizes both the submitted answer and the
stored correct answer (uppercase, strip spaces, split on comma into a letter
set) and returns `true` iff the two sets are exactly equal; in particular the
single answer `"A"` is correct iff the stored answer normalizes to `{"A"}`. -/
theorem C9_check_answer_correctness_set_equality (u c : String) :
    (AIQuiz.check_answer_correctness u c = true ↔
      AIQuiz.answerSet u = AIQuiz.answerSet c) ∧
    (AIQuiz.check_answer_correctness "A" c = true ↔
      AIQuiz.answerSet c = {"A"}) := by
  constructor
  · exact AIQuiz.check_answer_correctness_iff u c
  · rw [AIQuiz.check_answer_correctness_iff]
    have h : AIQuiz.answerSet "A" = {"A"} := by decide
    rw [h]
    exact eq_comm

namespace AIQuiz

/-- Helper: full case analysis of the consensus computation. -/
theorem validate_question_cases (ca : String) (c g : LLMResult) :
    validate_question ca c g =
      let ns := normalizeAnswer ca
      let nc := normalizeAnswer c.your_answer
      let ng := normalizeAnswer g.your_answer
      if c.success = true then
        if g.success = true then
          { all_agree := if ns ≠ "" then decide (nc = ns ∧ ng = ns) else decide (nc = ng)
            agreement_count :=
              if ns ≠ "" then (if nc = ns then 1 else 0) + (if ng = ns then 1 else 0)
              else if nc = ng then 2 else 0
            consensus_answer := if nc = ng then nc else if ns = "" then nc else ns }
        else
          { all_agree := false
            agreement_count := if ns ≠ "" ∧ nc = ns then 1 else 0
            consensus_answer := if ns ≠ "" then ns else "" }
      else
        if g.success = true then
          { all_agree := false
            agreement_count := if ns ≠ "" ∧ ng = ns then 1 else 0
            consensus_answer := if ns ≠ "" then ns else "" }
        else
          { all_agree := false
            agreement_count := 0
            consensus_answer := if ns ≠ "" then ns else "" } := by
  rcases c with ⟨cs, cans⟩
  rcases g with ⟨gs, gans⟩
  cases cs <;> cases gs <;>
    by_cases hns : normalizeAnswer ca = "" <;>
    by_cases h1 : normalizeAnswer cans = normalizeAnswer ca <;>
    by_cases h2 : normalizeAnswer gans = normalizeAnswer ca <;>
    by_cases h3 : normalizeAnswer cans = normalizeAnswer gans <;>
      simp_all [validate_question, List.countP, List.countP.go, beq_iff_eq, cond_eq_if]

end AIQuiz

/-- C2 counterexample: with stored answer `"A,B"` and both backends answering
`"B,A"` — set-equal but not string-equal after normalization — the code
reports `all_agree = false` and `agreement_count = 0`, while the claim
(set-equality comparison) predicts `all_agree = true`, `agreement_count = 2`. -/
theorem C2_set_equality_counterexample :
    AIQuiz.answerSet "B,A" = AIQuiz.answerSet "A,B" ∧
    (AIQuiz.validate_question "A,B" ⟨true, "B,A"⟩ ⟨true, "B,A"⟩).all_agree = false ∧
    (AIQuiz.validate_question "A,B" ⟨true, "B,A"⟩ ⟨true, "B,A"⟩).agreement_count = 0 := by
  decide

/-- C2 amended: `validate_question` compares each successful backend answer to
the stored answer by *string* equality of the normalized strings (uppercase,
spaces removed), not set-equality; `agreement_count` is the number of
successful backends whose normalized answer string equals the normalized
stored string, and `all_agree` holds iff both backends succeeded and both
match; with no stored answer, `all_agree` holds iff both backends succeeded
and their normalized answer strings are equal. A multi-letter answer listing
the same letters in a different order does not count as agreement. -/
theorem C2_agreement_by_normalized_string_equality
    (ca : String) (c g : AIQuiz.LLMResult) :
    (AIQuiz.normalizeAnswer ca ≠ "" →
      (AIQuiz.validate_question ca c g).agreement_count =
        ((if c.success = true ∧
              AIQuiz.normalizeAnswer c.your_answer = AIQuiz.normalizeAnswer ca
            then 1 else 0) +
         (if g.success = true ∧
              AIQuiz.normalizeAnswer g.your_answer = AIQuiz.normalizeAnswer ca
            then 1 else 0)) ∧
      ((AIQuiz.validate_question ca c g).all_agree = true ↔
        (c.success = true ∧ g.success = true ∧
         AIQuiz.normalizeAnswer c.your_answer = AIQuiz.normalizeAnswer ca ∧
         AIQuiz.normalizeAnswer g.your_answer = AIQuiz.normalizeAnswer ca))) ∧
    (AIQuiz.normalizeAnswer ca = "" →
      ((AIQuiz.validate_question ca c g).all_agree = true ↔
        (c.success = true ∧ g.success = true ∧
         AIQuiz.normalizeAnswer c.your_answer = AIQuiz.normalizeAnswer g.your_answer)) ∧
      (AIQuiz.validate_question ca c g).agreement_count =
        (if c.success = true ∧ g.success = true ∧
            AIQuiz.normalizeAnswer c.your_answer = AIQuiz.normalizeAnswer g.your_answer
          then 2 else 0)) := by
  rcases c with ⟨cs, cans⟩
  rcases g with ⟨gs, gans⟩
  rw [AIQuiz.validate_question_cases]
  cases cs <;> cases gs <;>
    by_cases hns : AIQuiz.normalizeAnswer ca = "" <;>
    by_cases h1 : AIQuiz.normalizeAnswer cans = AIQuiz.normalizeAnswer ca <;>
    by_cases h2 : AIQuiz.normalizeAnswer gans = AIQuiz.normalizeAnswer ca <;>
    by_cases h3 : AIQuiz.normalizeAnswer cans = AIQuiz.normalizeAnswer gans <;>
      simp_all

/-- Witness for the amended C2 at a concrete input: stored answer `"B"`, both
backends answering `"B"` — two matches, `all_agree = true`. -/
theorem C2_agreement_by_normalized_string_equality_witness :
    AIQuiz.normalizeAnswer "B" ≠ "" ∧
    (AIQuiz.validate_question "B" ⟨true, "B"⟩ ⟨true, "B"⟩).agreement_count =
      ((if true = true ∧ AIQuiz.normalizeAnswer "B" = AIQuiz.normalizeAnswer "B"
          then 1 else 0) +
       (if true = true ∧ AIQuiz.normalizeAnswer "B" = AIQuiz.normalizeAnswer "B"
          then 1 else 0)) :=
  ⟨by decide,
   ((C2_agreement_by_normalized_string_equality "B" ⟨true, "B"⟩ ⟨true, "B"⟩).1
      (by decide)).1⟩

/-- C3 counterexample: with no stored answer and exactly one successful
backend (answer `"B"`), the code returns an empty `consensus_answer`, not the
successful backend's answer as the claim states. -/
theorem C3_single_success_counterexample :
    (AIQuiz.validate_question "" ⟨true, "B"⟩ ⟨false, ""⟩).consensus_answer = "" ∧
    ("" : String) ≠ "B" := by
  decide

/-- C3 amended: `consensus_answer` is resolved in this order — the agreed
answer when both backends succeeded and their normalized answers are equal
(this overrides a stored answer); else the stored answer if non-empty; else,
when both backends succeeded but disagree, the first backend's answer; else
empty. In particular, with no stored answer and exactly one successful
backend, `consensus_answer` is empty, not that backend's answer. -/
theorem C3_consensus_resolution_order (ca : String) (c g : AIQuiz.LLMResult) :
    (c.success = true → g.success = true →
      AIQuiz.normalizeAnswer c.your_answer = AIQuiz.normalizeAnswer g.your_answer →
      (AIQuiz.validate_question ca c g).consensus_answer =
        AIQuiz.normalizeAnswer c.your_answer) ∧
    (AIQuiz.normalizeAnswer ca ≠ "" →
      ¬(c.success = true ∧ g.success = true ∧
        AIQuiz.normalizeAnswer c.your_answer = AIQuiz.normalizeAnswer g.your_answer) →
      (AIQuiz.validate_question ca c g).consensus_answer = AIQuiz.normalizeAnswer ca) ∧
    (AIQuiz.normalizeAnswer ca = "" → c.success = true → g.success = true →
      AIQuiz.normalizeAnswer c.your_answer ≠ AIQuiz.normalizeAnswer g.your_answer →
      (AIQuiz.validate_question ca c g).consensus_answer =
        AIQuiz.normalizeAnswer c.your_answer) ∧
    (AIQuiz.normalizeAnswer ca = "" → ¬(c.success = true ∧ g.success = true) →
      (AIQuiz.validate_question ca c g).consensus_answer = "") := by
  rcases c with ⟨cs, cans⟩
  rcases g with ⟨gs, gans⟩
  rw [AIQuiz.validate_question_cases]
  cases cs <;> cases gs <;>
    by_cases hns : AIQuiz.normalizeAnswer ca = "" <;>
    by_cases h3 : AIQuiz.normalizeAnswer cans = AIQuiz.normalizeAnswer gans <;>
      simp_all

/-- Witness for the amended C3: stored answer `"A"`, both backends agreeing on
`"B"` — the agreed answer overrides the stored one. -/
theorem C3_consensus_resolution_order_witness :
    (AIQuiz.validate_question "A" ⟨true, "B"⟩ ⟨true, "B"⟩).consensus_answer =
      AIQuiz.normalizeAnswer "B" :=
  (C3_consensus_resolution_order "A" ⟨true, "B"⟩ ⟨true, "B"⟩).1
    (by decide) (by decide) (by decide)

/-- C4 counterexample: stored answer `"A"`, one backend succeeding with `"A"`
and the other failing — the code returns `agreement_count = 1`, not the `0`
the claim states for the fewer-than-two-successes branch. -/
theorem C4_agreement_count_counterexample :
    (AIQuiz.validate_question "A" ⟨true, "A"⟩ ⟨false, ""⟩).agreement_count = 1 ∧
    (1 : Nat) ≠ 0 := by
  decide

/-- C4 amended: with fewer than two successful backends, `all_agree = false`
regardless of any match, and `agreement_count` equals the number of
successful backends whose normalized answer matches the normalized stored
answer — at most `1`, and `0` exactly when no successful backend matches or
no stored answer exists (not unconditionally `0`). -/
theorem C4_fewer_than_two_successes (ca : String) (c g : AIQuiz.LLMResult)
    (h : ¬(c.success = true ∧ g.success = true)) :
    (AIQuiz.validate_question ca c g).all_agree = false ∧
    (AIQuiz.validate_question ca c g).agreement_count =
      ((if AIQuiz.normalizeAnswer ca ≠ "" ∧ c.success = true ∧
            AIQuiz.normalizeAnswer c.your_answer = AIQuiz.normalizeAnswer ca
          then 1 else 0) +
       (if AIQuiz.normalizeAnswer ca ≠ "" ∧ g.success = true ∧
            AIQuiz.normalizeAnswer g.your_answer = AIQuiz.normalizeAnswer ca
          then 1 else 0)) ∧
    (AIQuiz.validate_question ca c g).agreement_count ≤ 1 := by
  rcases c with ⟨cs, cans⟩
  rcases g with ⟨gs, gans⟩
  rw [AIQuiz.validate_question_cases]
  cases cs <;> cases gs <;>
    by_cases hns : AIQuiz.normalizeAnswer ca = "" <;>
    by_cases h1 : AIQuiz.normalizeAnswer cans = AIQuiz.normalizeAnswer ca <;>
    by_cases h2 : AIQuiz.normalizeAnswer gans = AIQuiz.normalizeAnswer ca <;>
      simp_all

/-- Witness for the amended C4: one success matching the stored answer. -/
theorem C4_fewer_than_two_successes_witness :
    ¬((true : Bool) = true ∧ (false : Bool) = true) ∧
    (AIQuiz.validate_question "A" ⟨true, "A"⟩ ⟨false, ""⟩).all_agree = false ∧
    (AIQuiz.validate_question "A" ⟨true, "A"⟩ ⟨false, ""⟩).agreement_count ≤ 1 := by
  refine ⟨by decide, ?_, ?_⟩
  · exact (C4_fewer_than_two_successes "A" ⟨true, "A"⟩ ⟨false, ""⟩ (by decide)).1
  · exact (C4_fewer_than_two_successes "A" ⟨true, "A"⟩ ⟨false, ""⟩ (by decide)).2.2

/-- C8: when AI validation is bypassed, no backend is invoked (the result is
independent of the validator), the synthesized placeholder has
`all_agree = false`, both backend slots failed with the sentinel
`"AI validation skipped by user"`, truthy `manual_entry` and `skipped_ai`
markers; `handle_save` always sets `llm_validated = false`,
`llm_conflict = true` (for every action), and the stored payload (with
`all_agree` overridden by `llm_validated`) still satisfies the §6
manual-detection rule. -/
theorem C8_manual_bypass_always_flagged
    (validator validator2 : Unit → AIQuiz.ValidationPayload) (ca action : String) :
    AIQuiz.handle_validation validator true ca =
      AIQuiz.handle_validation validator2 true ca ∧
    AIQuiz.handle_validation validator true ca =
      AIQuiz.create_manual_validation_result ca ∧
    (AIQuiz.handle_validation validator true ca).all_agree = false ∧
    (AIQuiz.handle_validation validator true ca).claude.success = false ∧
    (AIQuiz.handle_validation validator true ca).claude.error =
      some AIQuiz.skipSentinel ∧
    (AIQuiz.handle_validation validator true ca).gpt.success = false ∧
    (AIQuiz.handle_validation validator true ca).gpt.error =
      some AIQuiz.skipSentinel ∧
    (AIQuiz.handle_validation validator true ca).manual_entry = true ∧
    (AIQuiz.handle_validation validator true ca).skipped_ai = true ∧
    AIQuiz.handle_save_flags true (AIQuiz.handle_validation validator true ca)
      action = (false, true) ∧
    AIQuiz.detect_manual_entry
      (AIQuiz.handle_save_payload (AIQuiz.handle_validation validator true ca)
        false) = true ∧
    (AIQuiz.handle_save_payload (AIQuiz.handle_validation validator true ca)
        false).all_agree = false := by
  simp [AIQuiz.handle_validation, AIQuiz.create_manual_validation_result,
    AIQuiz.handle_save_flags, AIQuiz.handle_save_payload,
    AIQuiz.detect_manual_entry]

/-- C10: `calculate_percentage` is total — it returns `0` when `total = 0`
(the division is guarded) and `round((correct/total)*100, 1)` when
`total > 0`. -/
theorem C10_calculate_percentage_total (c t : ℤ) :
    (t = 0 → AIQuiz.calculate_percentage c t = 0) ∧
    (0 < t → AIQuiz.calculate_percentage c t =
      AIQuiz.pyRound1 ((c : ℚ) / (t : ℚ) * 100)) := by
  constructor
  · intro h; simp [AIQuiz.calculate_percentage, h]
  · intro h
    have ht : t ≠ 0 := ne_of_gt h
    simp [AIQuiz.calculate_percentage, ht]

/-- Witness for C10 at concrete inputs: an attempt with zero questions gets
percentage `0`, and `2` correct out of `3` rounds to `66.7`. -/
theorem C10_calculate_percentage_total_witness :
    AIQuiz.calculate_percentage 7 0 = 0 ∧
    AIQuiz.calculate_percentage 2 3 = AIQuiz.pyRound1 ((2 : ℚ) / 3 * 100) ∧
    AIQuiz.calculate_percentage 2 3 = 667 / 10 := by
  refine ⟨(C10_calculate_percentage_total 7 0).1 rfl,
          (C10_calculate_percentage_total 2 3).2 (by norm_num), ?_⟩
  norm_num [AIQuiz.calculate_percentage, AIQuiz.pyRound1, AIQuiz.roundHalfEven]

namespace AIQuiz

theorem sameKey_iff (r e : AttemptRecord) :
    sameKey r e = true ↔ keyOf e = keyOf r := by
  simp [sameKey, keyOf, Prod.ext_iff]

theorem sameKey_self (r : AttemptRecord) : sameKey r r = true := by
  simp [sameKey]

theorem keyOf_replace (r e : AttemptRecord) :
    keyOf (if sameKey r e then r else e) = keyOf e := by
  by_cases h : sameKey r e = true
  · simp [h, (sameKey_iff r e).mp h]
  · simp [h]

theorem upsert_keyUnique {t : List AttemptRecord} (ht : KeyUnique t)
    (r : AttemptRecord) : KeyUnique (save_question_attempt_upsert t r) := by
  unfold save_question_attempt_upsert
  by_cases h : t.any (sameKey r) = true
  · rw [if_pos h]
    refine List.Pairwise.map _ ?_ ht
    intro a b hab
    rw [keyOf_replace, keyOf_replace]
    exact hab
  · rw [if_neg h]
    refine List.pairwise_append.mpr ⟨ht, List.pairwise_singleton _ _, ?_⟩
    intro a ha b hb
    rw [List.mem_singleton] at hb
    intro hkey
    have h' : ∀ x ∈ t, ¬sameKey r x = true := by
      simpa [List.any_eq_true] using h
    exact h' a ha ((sameKey_iff r a).mpr (hb ▸ hkey))

theorem filter_map_replace {t : List AttemptRecord} (ht : KeyUnique t)
    (r : AttemptRecord) (hex : t.any (sameKey r) = true) :
    (t.map (fun e => if sameKey r e then r else e)).filter (sameKey r) = [r] := by
  induction t with
  | nil => simp at hex
  | cons e t' ih =>
    rcases List.pairwise_cons.mp ht with ⟨hhead, ht'⟩
    by_cases he : sameKey r e = true
    · have hkey : keyOf e = keyOf r := (sameKey_iff r e).mp he
      simp only [List.map_cons, he, if_true, List.filter_cons, sameKey_self,
        if_true]
      have : (t'.map (fun x => if sameKey r x then r else x)).filter (sameKey r)
          = [] := by
        rw [List.filter_eq_nil_iff]
        intro x hx
        rcases List.mem_map.mp hx with ⟨b, hb, hxb⟩
        have hkb : keyOf b ≠ keyOf r := hkey ▸ (hhead b hb).symm
        have hsb : ¬(sameKey r b = true) := fun hc => hkb ((sameKey_iff r b).mp hc)
        rw [if_neg hsb] at hxb
        subst hxb
        simpa using hsb
      simp [this]
    · have hany' : t'.any (sameKey r) = true := by
        rcases List.any_eq_true.mp hex with ⟨x, hx, hxk⟩
        rcases List.mem_cons.mp hx with hxe | hxt
        · exact absurd (hxe ▸ hxk) he
        · exact List.any_eq_true.mpr ⟨x, hxt, hxk⟩
      simp only [List.map_cons, he, if_false, List.filter_cons]
      rw [if_neg (by simpa using he)]
      exact ih ht' hany'

theorem filter_upsert {t : List AttemptRecord} (ht : KeyUnique t)
    (r : AttemptRecord) :
    (save_question_attempt_upsert t r).filter (sameKey r) = [r] := by
  unfold save_question_attempt_upsert
  by_cases h : t.any (sameKey r) = true
  · rw [if_pos h]
    exact filter_map_replace ht r h
  · rw [if_neg h, List.filter_append]
    have h0 : t.filter (sameKey r) = [] := by
      rw [List.filter_eq_nil_iff]
      intro x hx
      have := (List.any_eq_false.mp (by simpa using h)) x hx
      simpa using this
    simp [h0, sameKey_self]

theorem applyUpsertWrites_keyUnique {t : List AttemptRecord} (ht : KeyUnique t)
    (ws : List AttemptRecord) : KeyUnique (applyUpsertWrites t ws) := by
  induction ws generalizing t with
  | nil => exact ht
  | cons w ws' ih => exact ih (upsert_keyUnique ht w)

end AIQuiz

/-- C1 counterexample: through `save_question_attempt` (the plain `INSERT` in
`quiz_service.py`), a skip write followed by an answer write for the same
`(quiz_attempt_id, question_id) = (1, 7)` pair leaves the table holding the
*first* (skip) record and the second write fails — the fields are not those
of the last write. -/
theorem C1_plain_insert_counterexample :
    AIQuiz.save_question_attempt
        (AIQuiz.save_question_attempt [] ⟨1, 7, none, false, none, none, true⟩).1
        ⟨1, 7, some "A", true, none, none, false⟩ =
      ([⟨1, 7, none, false, none, none, true⟩], false) ∧
    (⟨1, 7, none, false, none, none, true⟩ : AIQuiz.AttemptRecord) ≠
      ⟨1, 7, some "A", true, none, none, false⟩ := by
  decide

/-- C1 amended: the upsert semantics live in `save_question_attempt_upsert`
(`question_card.py`), the write path the quiz flow actually uses: starting
from any table with at most one live record per pair, after any non-empty
sequence of answer/skip writes for the same `(quiz_attempt_id, question_id)`
pair, the table still has at most one live record per pair and the record
for that pair is exactly the last write. `save_question_attempt`
(`quiz_service.py`) is a plain `INSERT` for which the first, not the last,
write wins. -/
theorem C1_upsert_last_write_wins (t ws : List AIQuiz.AttemptRecord) (a q : Nat)
    (ht : AIQuiz.KeyUnique t) (hws : ws ≠ [])
    (hkeys : ∀ r ∈ ws, r.quiz_attempt_id = a ∧ r.question_id = q) :
    AIQuiz.KeyUnique (AIQuiz.applyUpsertWrites t ws) ∧
    (AIQuiz.applyUpsertWrites t ws).filter
        (fun e => e.quiz_attempt_id == a && e.question_id == q) =
      [ws.getLast hws] := by
  constructor
  · exact AIQuiz.applyUpsertWrites_keyUnique ht ws
  · have hw := hkeys _ (List.getLast_mem hws)
    have hfun : (fun e : AIQuiz.AttemptRecord =>
        e.quiz_attempt_id == a && e.question_id == q) =
        AIQuiz.sameKey (ws.getLast hws) := by
      funext e
      simp [AIQuiz.sameKey, hw.1, hw.2]
    rw [hfun]
    have hsplit : ws.dropLast ++ [ws.getLast hws] = ws :=
      List.dropLast_append_getLast hws
    have happ : AIQuiz.applyUpsertWrites t ws =
        AIQuiz.save_question_attempt_upsert
          (AIQuiz.applyUpsertWrites t ws.dropLast) (ws.getLast hws) := by
      conv_lhs => rw [← hsplit]
      simp [AIQuiz.applyUpsertWrites, List.foldl_append]
    rw [happ]
    exact AIQuiz.filter_upsert
      (AIQuiz.applyUpsertWrites_keyUnique ht ws.dropLast) _

/-- Witness for the amended C1: skip then answer through the upsert leaves
exactly the answer record live for the pair `(1, 7)`. -/
theorem C1_upsert_last_write_wins_witness :
    AIQuiz.KeyUnique [] ∧
    ([(⟨1, 7, none, false, none, none, true⟩ : AIQuiz.AttemptRecord),
      ⟨1, 7, some "A", true, none, none, false⟩] ≠ []) ∧
    (AIQuiz.applyUpsertWrites []
        [⟨1, 7, none, false, none, none, true⟩,
         ⟨1, 7, some "A", true, none, none, false⟩]).filter
        (fun e => e.quiz_attempt_id == 1 && e.question_id == 7) =
      [⟨1, 7, some "A", true, none, none, false⟩] := by
  refine ⟨List.Pairwise.nil, by simp, ?_⟩
  exact (C1_upsert_last_write_wins []
    [⟨1, 7, none, false, none, none, true⟩,
     ⟨1, 7, some "A", true, none, none, false⟩] 1 7
    List.Pairwise.nil (by simp) (by decide)).2

namespace AIQuiz

theorem dedupStep_keys (acc : List QARow) (qa : QARow) :
    ((dedupStep acc qa).map (fun e => e.question_id) =
        acc.map (fun e => e.question_id) ∧
      qa.question_id ∈ acc.map (fun e => e.question_id)) ∨
    ((dedupStep acc qa).map (fun e => e.question_id) =
        acc.map (fun e => e.question_id) ++ [qa.question_id] ∧
      qa.question_id ∉ acc.map (fun e => e.question_id)) := by
  unfold dedupStep
  cases hf : acc.find? (fun e => e.question_id == qa.question_id) with
  | none =>
    right
    refine ⟨by simp, ?_⟩
    intro hmem
    rcases List.mem_map.mp hmem with ⟨e, he, hq⟩
    have := List.find?_eq_none.mp hf e he
    simp [hq] at this
  | some ex =>
    left
    have hex_mem := List.mem_of_find?_eq_some hf
    have hex_q : ex.question_id = qa.question_id := by
      have := List.find?_some hf
      simpa using this
    refine ⟨?_, List.mem_map.mpr ⟨ex, hex_mem, hex_q⟩⟩
    have hmap : ∀ m : List QARow,
        ((m.map (fun e => if e.question_id == qa.question_id then qa else e)).map
          (fun e => e.question_id)) = m.map (fun e => e.question_id) := by
      intro m
      rw [List.map_map]
      refine List.map_congr_left ?_
      intro e _
      by_cases h : e.question_id = qa.question_id
      · simp [Function.comp, h]
      · simp [Function.comp, h]
    dsimp only
    split_ifs <;> first | exact hmap acc | rfl

theorem dedup_foldl_keys (l : List QARow) (acc : List QARow)
    (hacc : (acc.map (fun e => e.question_id)).Nodup) :
    ((l.foldl dedupStep acc).map (fun e => e.question_id)).Nodup ∧
    (∀ q, q ∈ (l.foldl dedupStep acc).map (fun e => e.question_id) ↔
      (q ∈ acc.map (fun e => e.question_id) ∨
       q ∈ l.map (fun e => e.question_id))) := by
  induction l generalizing acc with
  | nil =>
    refine ⟨hacc, ?_⟩
    intro q
    simp
  | cons qa l' ih =>
    rw [List.foldl_cons]
    rcases dedupStep_keys acc qa with ⟨heq, hmem⟩ | ⟨heq, hmem⟩
    · have hacc' : ((dedupStep acc qa).map (fun e => e.question_id)).Nodup := by
        rw [heq]; exact hacc
      rcases ih (dedupStep acc qa) hacc' with ⟨h1, h2⟩
      refine ⟨h1, ?_⟩
      intro q
      rw [h2 q, heq]
      simp only [List.map_cons, List.mem_cons]
      constructor
      · rintro (h | h)
        · exact Or.inl h
        · exact Or.inr (Or.inr h)
      · rintro (h | h | h)
        · exact Or.inl h
        · exact Or.inl (h ▸ hmem)
        · exact Or.inr h
    · have hacc' : ((dedupStep acc qa).map (fun e => e.question_id)).Nodup := by
        rw [heq]
        simp only [List.nodup_append, List.nodup_singleton]
        exact ⟨hacc, by trivial, by simpa using hmem⟩
      rcases ih (dedupStep acc qa) hacc' with ⟨h1, h2⟩
      refine ⟨h1, ?_⟩
      intro q
      rw [h2 q, heq]
      simp only [List.map_cons, List.mem_cons, List.mem_append,
        List.mem_singleton]
      tauto

end AIQuiz

/-- C7 counterexample: one record answered at T1 = 1 and one skipped at
T2 = 2 > T1 for the same question — the code keeps the *answered* record
(the earlier one), not the record with the later timestamp as the claim
states. -/
theorem C7_later_skip_counterexample :
    AIQuiz.deduplicate_question_attempts
        [⟨5, false, 1, some "A"⟩, ⟨5, true, 2, none⟩] =
      [⟨5, false, 1, some "A"⟩] ∧
    (1 : Nat) < 2 ∧
    (⟨5, false, 1, some "A"⟩ : AIQuiz.QARow) ≠ ⟨5, true, 2, none⟩ := by
  decide

/-- C7 amended: the read-back deduplication keeps exactly one record per
question id (ids unique in the output, and an id appears in the output iff
it appears in the input); a non-skipped record is *always* preferred over a
skipped one regardless of timestamps — skipped at T1 then answered at
T2 > T1 keeps the answered record, but answered at T1 then skipped at
T2 > T1 also keeps the (earlier, answered) record; only among records with
equal skipped status does the latest `answered_at` win. -/
theorem C7_dedup_keeps_one_prefers_answered
    (l : List AIQuiz.QARow) (qid t1 t2 : Nat) (p1 p2 : Option String)
    (h : t1 < t2) :
    ((AIQuiz.deduplicate_question_attempts l).map (fun e => e.question_id)).Nodup ∧
    (∀ q, q ∈ (AIQuiz.deduplicate_question_attempts l).map
        (fun e => e.question_id) ↔ q ∈ l.map (fun e => e.question_id)) ∧
    AIQuiz.deduplicate_question_attempts
        [⟨qid, true, t1, p1⟩, ⟨qid, false, t2, p2⟩] = [⟨qid, false, t2, p2⟩] ∧
    AIQuiz.deduplicate_question_attempts
        [⟨qid, false, t1, p1⟩, ⟨qid, true, t2, p2⟩] = [⟨qid, false, t1, p1⟩] ∧
    AIQuiz.deduplicate_question_attempts
        [⟨qid, true, t1, p1⟩, ⟨qid, true, t2, p2⟩] = [⟨qid, true, t2, p2⟩] := by
  have hmain := AIQuiz.dedup_foldl_keys l [] (by simp)
  refine ⟨hmain.1, ?_, ?_, ?_, ?_⟩
  · intro q
    simpa using hmain.2 q
  · simp [AIQuiz.deduplicate_question_attempts, AIQuiz.dedupStep]
  · simp [AIQuiz.deduplicate_question_attempts, AIQuiz.dedupStep]
  · simp [AIQuiz.deduplicate_question_attempts, AIQuiz.dedupStep, h]

/-- Witness for the amended C7 at concrete inputs: question 5 skipped at
time 1 then answered at time 2 keeps only the answered record. -/
theorem C7_dedup_keeps_one_prefers_answered_witness :
    (1 : Nat) < 2 ∧
    AIQuiz.deduplicate_question_attempts
        [⟨5, true, 1, none⟩, ⟨5, false, 2, some "A"⟩] = [⟨5, false, 2, some "A"⟩] :=
  ⟨by decide,
   (C7_dedup_keeps_one_prefers_answered [] 5 1 2 none (some "A")
      (by decide)).2.2.1⟩

namespace AIQuiz

theorem difficultyMix_cases (d : String) :
    difficultyMix d = (7, 2, 1) ∨ difficultyMix d = (2, 7, 1) ∨
      difficultyMix d = (1, 2, 7) := by
  unfold difficultyMix DIFFICULTY_MIX
  by_cases h1 : d = "Easy"
  · have e1 : (d == "Easy") = true := beq_iff_eq.mpr h1
    simp [List.lookup, e1]
  · have e1 : (d == "Easy") = false := beq_eq_false_iff_ne.mpr h1
    by_cases h2 : d = "Medium"
    · have e2 : (d == "Medium") = true := beq_iff_eq.mpr h2
      simp [List.lookup, e1, e2]
    · have e2 : (d == "Medium") = false := beq_eq_false_iff_ne.mpr h2
      by_cases h3 : d = "Hard"
      · have e3 : (d == "Hard") = true := beq_iff_eq.mpr h3
        simp [List.lookup, e1, e2, e3]
      · have e3 : (d == "Hard") = false := beq_eq_false_iff_ne.mpr h3
        simp [List.lookup, e1, e2, e3]

theorem easy_add_medium_le (n : Nat) (d : String) :
    easyCount n d + mediumCount n d ≤ n := by
  rcases difficultyMix_cases d with h | h | h <;>
    · unfold easyCount mediumCount
      rw [h]
      dsimp only
      have h1 := Nat.div_mul_le_self (n * (7 : Nat)) 10
      have h2 := Nat.div_mul_le_self (n * (2 : Nat)) 10
      have h3 := Nat.div_mul_le_self (n * (1 : Nat)) 10
      omega

end AIQuiz

/-- C6: for every requested count N ≥ 1 and preferred difficulty in
{Easy, Medium, Hard}, the sub-targets `easy_n = floor(N·ratio_easy)`,
`medium_n = floor(N·ratio_medium)`, `hard_n = N - easy_n - medium_n` under
the fixed 70/20/10 table sum to exactly N, hard absorbing the remainder. -/
theorem C6_difficulty_subcounts_sum_to_n (n : Nat) (d : String)
    (_hn : 1 ≤ n) (_hd : d = "Easy" ∨ d = "Medium" ∨ d = "Hard") :
    AIQuiz.easyCount n d + AIQuiz.mediumCount n d + AIQuiz.hardCount n d = n := by
  have hle := AIQuiz.easy_add_medium_le n d
  unfold AIQuiz.hardCount
  omega

/-- Witness for C6: N = 5 at preferred difficulty Medium gives sub-targets
easy 1, medium 3, hard 1 — summing to 5 (the spec §8 example). -/
theorem C6_difficulty_subcounts_sum_to_n_witness :
    (1 ≤ 5 ∧ ("Medium" = "Easy" ∨ "Medium" = "Medium" ∨ "Medium" = "Hard")) ∧
    AIQuiz.easyCount 5 "Medium" + AIQuiz.mediumCount 5 "Medium" +
      AIQuiz.hardCount 5 "Medium" = 5 ∧
    AIQuiz.easyCount 5 "Medium" = 1 ∧ AIQuiz.mediumCount 5 "Medium" = 3 ∧
    AIQuiz.hardCount 5 "Medium" = 1 :=
  ⟨⟨by decide, by decide⟩,
   C6_difficulty_subcounts_sum_to_n 5 "Medium" (by decide) (by decide),
   by decide, by decide, by decide⟩

namespace AIQuiz

theorem length_le_of_nodup_subset {α : Type} [DecidableEq α] {l₁ l₂ : List α}
    (h1 : l₁.Nodup) (hs : l₁ ⊆ l₂) : l₁.length ≤ l₂.length := by
  have hc : l₁.toFinset ⊆ l₂.toFinset := by
    intro a ha
    rw [List.mem_toFinset] at ha ⊢
    exact hs ha
  calc l₁.length = l₁.toFinset.card := (List.toFinset_card_of_nodup h1).symm
    _ ≤ l₂.toFinset.card := Finset.card_le_card hc
    _ ≤ l₂.length := List.toFinset_card_le l₂

theorem length_filter_not_contains {l sel : List Question}
    (hl : l.Nodup) (hsel : sel.Nodup) (hs : sel ⊆ l) :
    (l.filter (fun q => !(sel.contains q))).length = l.length - sel.length := by
  have hperm : List.Perm (l.filter (fun q => sel.contains q)) sel := by
    rw [List.perm_ext_iff_of_nodup (hl.sublist (List.filter_sublist l)) hsel]
    intro a
    constructor
    · intro ha
      rcases List.mem_filter.mp ha with ⟨-, hc⟩
      simpa using hc
    · intro ha
      exact List.mem_filter.mpr ⟨hs ha, by simpa using ha⟩
  have htot := (List.filter_append_perm (fun q => sel.contains q) l).length_eq
  rw [List.length_append] at htot
  have := hperm.length_eq
  omega

end AIQuiz

namespace AIQuiz

theorem availablePool_spec (pool : List Question) (recentIds : List Nat)
    (n : Nat) (hnd : pool.Nodup) :
    (availablePool pool recentIds n) ⊆ pool ∧
    (availablePool pool recentIds n).Nodup ∧
    min n (availablePool pool recentIds n).length = min n pool.length := by
  unfold availablePool
  by_cases h :
      (pool.filter (fun q => !(recentIds.contains q.question_id))).length < n
  · rw [if_pos h]
    exact ⟨fun a ha => ha, hnd, rfl⟩
  · rw [if_neg h]
    refine ⟨fun a ha => (List.mem_filter.mp ha).1,
      hnd.sublist (List.filter_sublist _), ?_⟩
    have hle := (List.filter_sublist
      (p := fun q => !(recentIds.contains q.question_id)) pool).length_le
    omega

theorem pickByDifficulty_spec {sample : List Question → Nat → List Question}
    (hs : SampleSpec sample) {available : List Question}
    (hnd : available.Nodup) (n : Nat) (d : String) :
    (pickByDifficulty sample available n d).Nodup ∧
    (pickByDifficulty sample available n d) ⊆ available ∧
    (pickByDifficulty sample available n d).length ≤ n := by
  unfold pickByDifficulty
  have hend : (available.filter (fun q => q.difficulty == "Easy")).Nodup :=
    hnd.sublist (List.filter_sublist _)
  have hmnd : (available.filter (fun q => q.difficulty == "Medium")).Nodup :=
    hnd.sublist (List.filter_sublist _)
  have hhnd : (available.filter (fun q => q.difficulty == "Hard")).Nodup :=
    hnd.sublist (List.filter_sublist _)
  have he := hs (available.filter (fun q => q.difficulty == "Easy"))
    (min (easyCount n d) (available.filter (fun q => q.difficulty == "Easy")).length)
    (min_le_right _ _)
  have hm := hs (available.filter (fun q => q.difficulty == "Medium"))
    (min (mediumCount n d) (available.filter (fun q => q.difficulty == "Medium")).length)
    (min_le_right _ _)
  have hh := hs (available.filter (fun q => q.difficulty == "Hard"))
    (min (hardCount n d) (available.filter (fun q => q.difficulty == "Hard")).length)
    (min_le_right _ _)
  have hdiffE : ∀ q ∈ available.filter (fun q => q.difficulty == "Easy"),
      q.difficulty = "Easy" := by
    intro q hq
    simpa using (List.mem_filter.mp hq).2
  have hdiffM : ∀ q ∈ available.filter (fun q => q.difficulty == "Medium"),
      q.difficulty = "Medium" := by
    intro q hq
    simpa using (List.mem_filter.mp hq).2
  have hdiffH : ∀ q ∈ available.filter (fun q => q.difficulty == "Hard"),
      q.difficulty = "Hard" := by
    intro q hq
    simpa using (List.mem_filter.mp hq).2
  refine ⟨?_, ?_, ?_⟩
  · rw [List.nodup_append]
    refine ⟨?_, hh.2.2 hhnd, ?_⟩
    · rw [List.nodup_append]
      refine ⟨he.2.2 hend, hm.2.2 hmnd, ?_⟩
      intro a ha hb
      have h1 := hdiffE a (he.2.1 ha)
      have h2 := hdiffM a (hm.2.1 hb)
      rw [h1] at h2
      exact absurd h2 (by decide)
    · intro a ha hb
      have h2 := hdiffH a (hh.2.1 hb)
      rcases List.mem_append.mp ha with ha | ha
      · have h1 := hdiffE a (he.2.1 ha)
        rw [h1] at h2
        exact absurd h2 (by decide)
      · have h1 := hdiffM a (hm.2.1 ha)
        rw [h1] at h2
        exact absurd h2 (by decide)
  · refine List.append_subset.mpr ⟨List.append_subset.mpr ⟨?_, ?_⟩, ?_⟩
    · exact fun a ha => (List.mem_filter.mp (he.2.1 ha)).1
    · exact fun a ha => (List.mem_filter.mp (hm.2.1 ha)).1
    · exact fun a ha => (List.mem_filter.mp (hh.2.1 ha)).1
  · rw [List.length_append, List.length_append, he.1, hm.1, hh.1]
    have hem := easy_add_medium_le n d
    unfold hardCount
    omega

theorem fillSelection_spec {sample : List Question → Nat → List Question}
    (hs : SampleSpec sample) {available selected : List Question} {n : Nat}
    (hnd : available.Nodup) (hsnd : selected.Nodup)
    (hsub : selected ⊆ available) (hlen : selected.length ≤ n) :
    (fillSelection sample available selected n).Nodup ∧
    (fillSelection sample available selected n) ⊆ available ∧
    (fillSelection sample available selected n).length =
      min n available.length := by
  have hsel_le : selected.length ≤ available.length :=
    length_le_of_nodup_subset hsnd hsub
  have hrem := length_filter_not_contains hnd hsnd hsub
  unfold fillSelection
  by_cases hlt : selected.length < n
  · rw [if_pos hlt]
    by_cases hemp :
        (available.filter (fun q => !(selected.contains q))).isEmpty
    · rw [if_pos hemp]
      have h0 : (available.filter (fun q => !(selected.contains q))).length = 0 := by
        rcases List.isEmpty_iff.mp hemp with h
        rw [h]
        rfl
      exact ⟨hsnd, hsub, by omega⟩
    · rw [if_neg hemp]
      have hk : min (n - selected.length)
          (available.filter (fun q => !(selected.contains q))).length ≤
          (available.filter (fun q => !(selected.contains q))).length :=
        min_le_right _ _
      have hsamp := hs (available.filter (fun q => !(selected.contains q))) _ hk
      have hrem_nd : (available.filter (fun q => !(selected.contains q))).Nodup :=
        hnd.sublist (List.filter_sublist _)
      refine ⟨?_, ?_, ?_⟩
      · rw [List.nodup_append]
        refine ⟨hsnd, hsamp.2.2 hrem_nd, ?_⟩
        intro a ha hb
        have hmem := List.mem_filter.mp (hsamp.2.1 hb)
        have : a ∉ selected := by simpa using hmem.2
        exact this ha
      · refine List.append_subset.mpr ⟨hsub, ?_⟩
        intro a ha
        exact (List.mem_filter.mp (hsamp.2.1 ha)).1
      · rw [List.length_append, hsamp.1]
        omega
  · rw [if_neg hlt]
    exact ⟨hsnd, hsub, by omega⟩

end AIQuiz

namespace AIQuiz

theorem fetchPool_ids_nodup {rows : List QuestionRow} (tags : List QuizTag)
    (quizId : Nat) (hrows : (rows.map (fun r => r.question_id)).Nodup) :
    ((fetchPool rows tags quizId).map (fun q => q.question_id)).Nodup := by
  unfold fetchPool
  rw [List.map_map]
  have heq : ((fun q : Question => q.question_id) ∘
      (fun r : QuestionRow =>
        ({question_id := r.question_id, difficulty := r.difficulty} : Question)))
      = fun r : QuestionRow => r.question_id := rfl
  rw [heq]
  exact hrows.sublist ((List.filter_sublist _).map _)

theorem select_core {sample : List Question → Nat → List Question}
    {shuffle : List Question → List Question}
    (hs : SampleSpec sample) (hsh : ∀ l, List.Perm (shuffle l) l)
    {pool : List Question}
    (hpool_ids : (pool.map (fun q => q.question_id)).Nodup)
    (recentIds : List Nat) (n : Nat) (d : String) :
    (select_questions_for_attempt sample shuffle pool recentIds n d).Nodup ∧
    (select_questions_for_attempt sample shuffle pool recentIds n d).length =
      min n pool.length ∧
    ∀ i ∈ select_questions_for_attempt sample shuffle pool recentIds n d,
      ∃ q ∈ pool, q.question_id = i := by
  have hpool_nd : pool.Nodup := hpool_ids.of_map
  unfold select_questions_for_attempt
  by_cases hemp : pool.isEmpty
  · have hp : pool = [] := List.isEmpty_iff.mp hemp
    rw [if_pos hemp]
    subst hp
    simp
  · rw [if_neg hemp]
    obtain ⟨hA_sub, hA_nd, hA_min⟩ := availablePool_spec pool recentIds n hpool_nd
    obtain ⟨hP_nd, hP_sub, hP_len⟩ := pickByDifficulty_spec hs hA_nd n d
    obtain ⟨hF_nd, hF_sub, hF_len⟩ := fillSelection_spec hs hA_nd hP_nd hP_sub hP_len
    have hperm := hsh (fillSelection sample (availablePool pool recentIds n)
      (pickByDifficulty sample (availablePool pool recentIds n) n d) n)
    refine ⟨?_, ?_, ?_⟩
    · refine List.Nodup.map_on ?_ (hperm.nodup_iff.mpr hF_nd)
      intro x hx y hy hxy
      exact List.inj_on_of_nodup_map hpool_ids
        (hA_sub (hF_sub (hperm.mem_iff.mp hx)))
        (hA_sub (hF_sub (hperm.mem_iff.mp hy))) hxy
    · rw [List.length_map, hperm.length_eq, hF_len]
      exact hA_min
    · intro i hi
      rcases List.mem_map.mp hi with ⟨q, hq, rfl⟩
      exact ⟨q, hA_sub (hF_sub (hperm.mem_iff.mp hq)), rfl⟩

theorem sampleSpec_take : SampleSpec (fun l k => l.take k) := by
  intro l k hk
  refine ⟨?_, List.take_subset k l, fun h => h.sublist (List.take_sublist k l)⟩
  rw [List.length_take]
  omega

end AIQuiz

/-- C5: for any quiz, requested count N and preferred difficulty, with the
candidate pool being the questions tagged to the quiz having
`llm_conflict = false`, the sampler returns distinct question ids, each the
id of a tagged, non-conflicted question (a question with `conflict = true`
is never returned), and the returned length is `min N P` where `P` is the
pool size — exactly N when P ≥ N, exactly P when P < N, and the empty pool
yields the empty list. Holds for every `sample`/`shuffle` satisfying the
`random.sample` contract and permutation property, given database key
uniqueness of `questions.question_id`. -/
theorem C5_sampler_distinct_from_pool
    (sample : List AIQuiz.Question → Nat → List AIQuiz.Question)
    (shuffle : List AIQuiz.Question → List AIQuiz.Question)
    (rows : List AIQuiz.QuestionRow) (tags : List AIQuiz.QuizTag)
    (quizId : Nat) (recentIds : List Nat) (n : Nat) (d : String)
    (hs : AIQuiz.SampleSpec sample)
    (hsh : ∀ l, List.Perm (shuffle l) l)
    (hrows : (rows.map (fun r => r.question_id)).Nodup) :
    (AIQuiz.select_questions_for_attempt sample shuffle
        (AIQuiz.fetchPool rows tags quizId) recentIds n d).Nodup ∧
    (AIQuiz.select_questions_for_attempt sample shuffle
        (AIQuiz.fetchPool rows tags quizId) recentIds n d).length =
      min n (AIQuiz.fetchPool rows tags quizId).length ∧
    ∀ i ∈ AIQuiz.select_questions_for_attempt sample shuffle
        (AIQuiz.fetchPool rows tags quizId) recentIds n d,
      ∃ r ∈ rows, r.question_id = i ∧ r.llm_conflict = false ∧
        ∃ t ∈ tags, t.quiz_id = quizId ∧ t.question_id = i := by
  have hpool_ids := AIQuiz.fetchPool_ids_nodup tags quizId hrows
  obtain ⟨h1, h2, h3⟩ := AIQuiz.select_core hs hsh hpool_ids recentIds n d
  refine ⟨h1, h2, ?_⟩
  intro i hi
  rcases h3 i hi with ⟨q, hq, hqi⟩
  unfold AIQuiz.fetchPool at hq
  rcases List.mem_map.mp hq with ⟨r, hr, hrq⟩
  rcases List.mem_filter.mp hr with ⟨hrmem, hcond⟩
  rw [Bool.and_eq_true] at hcond
  rcases hcond with ⟨hany, hconf⟩
  have hri : r.question_id = i := by
    rw [← hqi, ← hrq]
  refine ⟨r, hrmem, hri, by simpa using hconf, ?_⟩
  rcases List.any_eq_true.mp hany with ⟨t, ht, htc⟩
  rw [Bool.and_eq_true] at htc
  refine ⟨t, ht, by simpa using htc.1, ?_⟩
  have : t.question_id = r.question_id := by simpa using htc.2
  rw [this, hri]

/-- Witness for C5: a concrete quiz with pool {1 Easy, 2 Medium, 3 Hard}
(question 4 is conflicted and excluded), sampling via `take`, identity
shuffle, requesting 2 at difficulty Medium: the returned length is
`min 2 P`. -/
theorem C5_sampler_distinct_from_pool_witness :
    AIQuiz.SampleSpec (fun l k => l.take k) ∧
    (∀ l : List AIQuiz.Question, List.Perm (id l) l) ∧
    (([⟨1, "Easy", false⟩, ⟨2, "Medium", false⟩, ⟨3, "Hard", false⟩,
        ⟨4, "Medium", true⟩] : List AIQuiz.QuestionRow).map
      (fun r => r.question_id)).Nodup ∧
    (AIQuiz.select_questions_for_attempt (fun l k => l.take k) id
        (AIQuiz.fetchPool
          [⟨1, "Easy", false⟩, ⟨2, "Medium", false⟩, ⟨3, "Hard", false⟩,
           ⟨4, "Medium", true⟩]
          [⟨1, 1⟩, ⟨1, 2⟩, ⟨1, 3⟩, ⟨1, 4⟩] 1) [] 2 "Medium").length =
      min 2 (AIQuiz.fetchPool
          [⟨1, "Easy", false⟩, ⟨2, "Medium", false⟩, ⟨3, "Hard", false⟩,
           ⟨4, "Medium", true⟩]
          [⟨1, 1⟩, ⟨1, 2⟩, ⟨1, 3⟩, ⟨1, 4⟩] 1).length :=
  ⟨AIQuiz.sampleSpec_take, fun l => List.Perm.refl l, by decide,
   (C5_sampler_distinct_from_pool (fun l k => l.take k) id
      [⟨1, "Easy", false⟩, ⟨2, "Medium", false⟩, ⟨3, "Hard", false⟩,
       ⟨4, "Medium", true⟩]
      [⟨1, 1⟩, ⟨1, 2⟩, ⟨1, 3⟩, ⟨1, 4⟩] 1 [] 2 "Medium"
      AIQuiz.sampleSpec_take (fun l => List.Perm.refl l) (by decide)).2.1⟩
